import Mathlib

/-!
Verification development for the sim repository excerpt: the Google Vault
block handler (`google-vault-handler.ts`), the document tags cell renderer
(`document-tags-cell.tsx`) and the create-matters tool descriptor.

The host language values are modelled by `JsValue`; records of inputs are
modelled as functions from keys to optional values; numbers are modelled as
integers (the claims under examination only involve integral values).
-/

set_option maxHeartbeats 1000000
set_option maxRecDepth 4000

/-- Model of a JavaScript runtime value. Numbers are modelled as integers. -/
inductive JsValue where
  | null
  | undefined
  | bool (b : Bool)
  | num (n : Int)
  | str (s : String)
  | arr (elems : List JsValue)
  | obj (fields : List (String × JsValue))

/-- JavaScript truthiness of a value. -/
def jsTruthy : JsValue → Bool
  | .null => false
  | .undefined => false
  | .bool b => b
  | .num n => n != 0
  | .str s => s != ""
  | .arr _ => true
  | .obj _ => true

/-- Whether a value is `null` or `undefined`. -/
def JsValue.isNullish : JsValue → Bool
  | .null => true
  | .undefined => true
  | _ => false

/-- Digits of a natural number (fuel-driven so that the kernel can evaluate it). -/
def natToDigits (fuel n : Nat) (acc : List Char) : List Char :=
  match fuel with
  | 0 => acc
  | f + 1 =>
    if n < 10 then Char.ofNat (48 + n) :: acc
    else natToDigits f (n / 10) (Char.ofNat (48 + n % 10) :: acc)

/-- Decimal string of a natural number. -/
def natToString (n : Nat) : String := ⟨natToDigits (n + 1) n []⟩

/-- Decimal string of an integer, as JavaScript prints integral numbers. -/
def intToString (n : Int) : String :=
  (if n < 0 then "-" else "") ++ natToString n.natAbs

/-- Join a list of strings with a separator, as `Array.prototype.join`. -/
def joinSep (sep : String) : List String → String
  | [] => ""
  | [x] => x
  | x :: xs => x ++ sep ++ joinSep sep xs

/-- Stringification of one array element inside a JavaScript array join
(`null` and `undefined` become empty; one nesting level is modelled). -/
def jsElemToString : JsValue → String
  | .null => ""
  | .undefined => ""
  | .bool b => if b then "true" else "false"
  | .num n => intToString n
  | .str s => s
  | .arr _ => ""
  | .obj _ => "[object Object]"

/-- Model of JavaScript `String(value)`. -/
def jsToString : JsValue → String
  | .null => "null"
  | .undefined => "undefined"
  | .bool b => if b then "true" else "false"
  | .num n => intToString n
  | .str s => s
  | .arr elems => joinSep "," (elems.map jsElemToString)
  | .obj _ => "[object Object]"

/-- Property access `v[k]` resolving to `undefined` when absent, as the
optional-chaining reads in the sources. -/
def optChain (v : JsValue) (k : String) : JsValue :=
  match v with
  | .obj fs =>
    match fs.find? (fun p => p.1 == k) with
    | some p => p.2
    | none => .undefined
  | _ => .undefined

/-- Model of JavaScript `a || b` on strings: `b` when `a` is empty. -/
def jsOr (a b : String) : String := if a = "" then b else a

/-- Model of `a?.x || b` where the optional string may be absent. -/
def jsOrOpt (a : Option String) (b : String) : String :=
  match a with
  | some s => jsOr s b
  | none => b

/-- Model of JavaScript `String.prototype.toLowerCase` (ASCII letters). -/
def jsToLowerCase (s : String) : String := ⟨s.data.map Char.toLower⟩

/-- Trim whitespace from both ends of a character list. -/
def trimChars (l : List Char) : List Char :=
  ((l.dropWhile Char.isWhitespace).reverse.dropWhile Char.isWhitespace).reverse

/-- Model of JavaScript `String.prototype.trim`. -/
def jsTrim (s : String) : String := ⟨trimChars s.data⟩

/-- Whether `pat` occurs as a contiguous run inside `l`. -/
def listInfix : List Char → List Char → Bool
  | pat, [] => pat.isEmpty
  | pat, a :: l => pat.isPrefixOf (a :: l) || listInfix pat l

/-- Model of JavaScript `String.prototype.includes`. -/
def strContains (s pat : String) : Bool := listInfix pat.data s.data

/-- Model of JavaScript `String.prototype.startsWith`. -/
def strStartsWith (s pat : String) : Bool := pat.data.isPrefixOf s.data

/-- Digit grouping of a reversed digit list: a comma after every three
digits, as `Number.prototype.toLocaleString` groups integral numerals. -/
def group3 : List Char → List Char
  | a :: b :: c :: d :: rest => a :: b :: c :: ',' :: group3 (d :: rest)
  | l => l

/-- Model of `Number.prototype.toLocaleString` on integral values: a
locale-grouped numeral with comma separators. -/
def localeString (n : Int) : String :=
  (if n < 0 then "-" else "") ++ ⟨(group3 (natToString n.natAbs).data.reverse).reverse⟩

/-- From `google-vault-handler.ts`, `isCredentialRefreshError`: detects
Google Vault credential and reauthentication errors by case-insensitive
substring matching. -/
def isCredentialRefreshError (errorMessage : String) : Bool :=
  let lowerMessage := jsToLowerCase errorMessage
  strContains lowerMessage "invalid_rapt" ||
  strContains lowerMessage "reauth related error" ||
  (strContains lowerMessage "invalid_grant" && strContains lowerMessage "rapt") ||
  strContains lowerMessage "failed to refresh token" ||
  (strContains lowerMessage "failed to fetch access token" && strContains lowerMessage "401")

/-- The fixed remediation message substituted by `enhanceCredentialError`
in `google-vault-handler.ts`. -/
def remediationMessage : String :=
  "Google Vault authentication failed (likely due to reauthentication policy). To resolve this, try disconnecting and reconnecting your Google Vault credential in the Credentials settings. If the issue persists, ask your Google Workspace administrator to disable \"Reauthentication policy\" for Sim Studio in the Google Admin Console (Security > Access and data control > Context-Aware Access > Reauthentication policy), or exempt Sim Studio from reauthentication requirements. Learn more: https://support.google.com/a/answer/9368756"

/-- From `google-vault-handler.ts`, `enhanceCredentialError`: replaces a
recognised credential failure message with the fixed remediation message
and leaves every other message unchanged. -/
def enhanceCredentialError (originalError : String) : String :=
  if isCredentialRefreshError originalError then remediationMessage else originalError

/-- JSON whitespace skipping (space, tab, newline, carriage return). -/
def skipJsonWs (l : List Char) : List Char :=
  l.dropWhile (fun c => c == ' ' || c == '\t' || c == '\n' || c == '\r')

/-- Hexadecimal value of a character, when it is a hex digit. -/
def hexVal (c : Char) : Option Nat :=
  if c.isDigit then some (c.toNat - 48)
  else if 97 ≤ c.toNat ∧ c.toNat ≤ 102 then some (c.toNat - 87)
  else if 65 ≤ c.toNat ∧ c.toNat ≤ 70 then some (c.toNat - 55)
  else none

/-- Body of a JSON string literal after the opening quote: returns the
decoded characters and the remaining input after the closing quote.
Control characters are rejected and the standard escapes are decoded. -/
def parseJsonStringChars : List Char → Option (List Char × List Char)
  | [] => none
  | '"' :: rest => some ([], rest)
  | '\\' :: '"' :: rest => (parseJsonStringChars rest).map (fun p => ('"' :: p.1, p.2))
  | '\\' :: '\\' :: rest => (parseJsonStringChars rest).map (fun p => ('\\' :: p.1, p.2))
  | '\\' :: '/' :: rest => (parseJsonStringChars rest).map (fun p => ('/' :: p.1, p.2))
  | '\\' :: 'b' :: rest => (parseJsonStringChars rest).map (fun p => (Char.ofNat 8 :: p.1, p.2))
  | '\\' :: 'f' :: rest => (parseJsonStringChars rest).map (fun p => (Char.ofNat 12 :: p.1, p.2))
  | '\\' :: 'n' :: rest => (parseJsonStringChars rest).map (fun p => ('\n' :: p.1, p.2))
  | '\\' :: 'r' :: rest => (parseJsonStringChars rest).map (fun p => (Char.ofNat 13 :: p.1, p.2))
  | '\\' :: 't' :: rest => (parseJsonStringChars rest).map (fun p => ('\t' :: p.1, p.2))
  | '\\' :: 'u' :: h1 :: h2 :: h3 :: h4 :: rest =>
    match hexVal h1, hexVal h2, hexVal h3, hexVal h4 with
    | some a, some b, some c, some d =>
      (parseJsonStringChars rest).map
        (fun p => (Char.ofNat (((a * 16 + b) * 16 + c) * 16 + d) :: p.1, p.2))
    | _, _, _, _ => none
  | '\\' :: _ => none
  | c :: rest =>
    if c.toNat < 32 then none
    else (parseJsonStringChars rest).map (fun p => (c :: p.1, p.2))

/-- Whether the input continues with a fraction or exponent marker. The
model of JavaScript numbers is integral, so such literals are outside the
model and rejected by `parseJsonNat`. -/
def startsFracOrExp : List Char → Bool
  | '.' :: _ => true
  | 'e' :: _ => true
  | 'E' :: _ => true
  | _ => false

/-- JSON natural-number literal (no leading zeros, integral only). -/
def parseJsonNat (l : List Char) : Option (Nat × List Char) :=
  match l with
  | '0' :: rest =>
    match rest with
    | c :: _ =>
      if c.isDigit then none
      else if startsFracOrExp rest then none
      else some (0, rest)
    | [] => some (0, [])
  | c :: rest =>
    if c.isDigit then
      let p := (c :: rest).span Char.isDigit
      if startsFracOrExp p.2 then none
      else some (p.1.foldl (fun a ch => a * 10 + (ch.toNat - 48)) 0, p.2)
    else none
  | [] => none

/-- JSON number token, with an optional leading minus. -/
def parseJsonNumberTok (l : List Char) : Option (JsValue × List Char) :=
  match l with
  | '-' :: rest => (parseJsonNat rest).map (fun p => (JsValue.num (-(p.1 : Int)), p.2))
  | _ => (parseJsonNat l).map (fun p => (JsValue.num (p.1 : Int), p.2))

/-- Insert or replace a key in an association list, keeping the position of
an existing key, as assignment to a JavaScript object property does. -/
def setAssoc (l : List (String × JsValue)) (k : String) (v : JsValue) :
    List (String × JsValue) :=
  if l.any (fun p => p.1 == k) then l.map (fun p => if p.1 == k then (k, v) else p)
  else l ++ [(k, v)]

/-- Parsing mode of the fuel-driven JSON parser: a single value, the
members of an object, or the elements of an array. -/
inductive JsonMode where
  | value
  | members (acc : List (String × JsValue))
  | elems (acc : List JsValue)

/-- Fuel-driven recursive-descent JSON parser (the fuel strictly exceeds
the input length, so well-formed inputs never exhaust it). -/
def parseJsonCore : Nat → JsonMode → List Char → Option (JsValue × List Char)
  | 0, _, _ => none
  | f + 1, .value, l =>
    match l with
    | '{' :: rest =>
      match skipJsonWs rest with
      | '}' :: r2 => some (.obj [], r2)
      | r2 => parseJsonCore f (.members []) r2
    | '[' :: rest =>
      match skipJsonWs rest with
      | ']' :: r2 => some (.arr [], r2)
      | r2 => parseJsonCore f (.elems []) r2
    | '"' :: rest => (parseJsonStringChars rest).map (fun p => (JsValue.str ⟨p.1⟩, p.2))
    | 't' :: 'r' :: 'u' :: 'e' :: rest => some (.bool true, rest)
    | 'f' :: 'a' :: 'l' :: 's' :: 'e' :: rest => some (.bool false, rest)
    | 'n' :: 'u' :: 'l' :: 'l' :: rest => some (.null, rest)
    | l2 => parseJsonNumberTok l2
  | f + 1, .members acc, l =>
    match l with
    | '"' :: rest =>
      match parseJsonStringChars rest with
      | some (key, r2) =>
        match skipJsonWs r2 with
        | ':' :: r3 =>
          match parseJsonCore f .value (skipJsonWs r3) with
          | some (v, r4) =>
            match skipJsonWs r4 with
            | ',' :: r5 => parseJsonCore f (.members (setAssoc acc ⟨key⟩ v)) (skipJsonWs r5)
            | '}' :: r5 => some (.obj (setAssoc acc ⟨key⟩ v), r5)
            | _ => none
          | none => none
        | _ => none
      | none => none
    | _ => none
  | f + 1, .elems acc, l =>
    match parseJsonCore f .value l with
    | some (v, r2) =>
      match skipJsonWs r2 with
      | ',' :: r3 => parseJsonCore f (.elems (acc ++ [v])) (skipJsonWs r3)
      | ']' :: r3 => some (.arr (acc ++ [v]), r3)
      | _ => none
    | none => none

/-- Model of JavaScript `JSON.parse`: `some` of the parsed value on a
well-formed document, `none` when parsing throws. Numeric literals are
modelled as integers. -/
def jsonParse (s : String) : Option JsValue :=
  match parseJsonCore (s.data.length + 1) JsonMode.value (skipJsonWs s.data) with
  | some (v, rest) => if skipJsonWs rest = [] then some v else none
  | none => none

/-- Days from the civil epoch 1970-01-01 for a proleptic Gregorian date. -/
def daysFromCivil (y : Int) (m d : Nat) : Int :=
  let y2 : Int := if m ≤ 2 then y - 1 else y
  let era : Int := Int.fdiv y2 400
  let yoe : Int := y2 - era * 400
  let mp : Nat := (m + 9) % 12
  let doy : Int := ((153 * mp + 2) / 5 + d - 1 : Nat)
  let doe : Int := yoe * 365 + Int.fdiv yoe 4 - Int.fdiv yoe 100 + doy
  era * 146097 + doe - 719468

/-- Civil proleptic Gregorian date (year, month, day) of an epoch day count. -/
def civilFromDays (z : Int) : Int × Nat × Nat :=
  let z2 := z + 719468
  let era := Int.fdiv z2 146097
  let doe : Nat := (z2 - era * 146097).toNat
  let yoe : Nat := (doe - doe / 1460 + doe / 36524 - doe / 146096) / 365
  let y : Int := (yoe : Int) + era * 400
  let doy : Nat := doe - (365 * yoe + yoe / 4 - yoe / 100)
  let mp : Nat := (5 * doy + 2) / 153
  let d : Nat := doy - (153 * mp + 2) / 5 + 1
  let m : Nat := if mp < 10 then mp + 3 else mp - 9
  (if m ≤ 2 then y + 1 else y, m, d)

/-- Gregorian leap-year test. -/
def isLeapYear (y : Int) : Bool :=
  (Int.emod y 4 == 0 && Int.emod y 100 != 0) || Int.emod y 400 == 0

/-- Number of days in a month of a given year. -/
def daysInMonth (y : Int) (m : Nat) : Nat :=
  if m = 2 then (if isLeapYear y then 29 else 28)
  else if m = 4 ∨ m = 6 ∨ m = 9 ∨ m = 11 then 30 else 31

/-- Exactly `n` decimal digits from the input, accumulated into a number. -/
def takeDigitsCore : Nat → Nat → List Char → Option (Nat × List Char)
  | 0, acc, l => some (acc, l)
  | n + 1, acc, c :: l =>
    if c.isDigit then takeDigitsCore n (acc * 10 + (c.toNat - 48)) l else none
  | _ + 1, _, [] => none

/-- Exactly `n` decimal digits, as a number, with the remaining input. -/
def takeDigitsN (n : Nat) (l : List Char) : Option (Nat × List Char) :=
  takeDigitsCore n 0 l

/-- Month and day of an ISO 8601 date after the year: `-MM-DD`, `-MM` or
nothing (missing parts default to 1). -/
def parseMonthDay : List Char → Option (Nat × Nat × List Char)
  | '-' :: r =>
    match takeDigitsN 2 r with
    | some (m, '-' :: r3) =>
      match takeDigitsN 2 r3 with
      | some (d, r4) => some (m, d, r4)
      | none => none
    | some (m, r2) => some (m, 1, r2)
    | none => none
  | l => some (1, 1, l)

/-- Milliseconds denoted by a fraction digit list (first three digits,
zero padded). -/
def fracMs (ds : List Char) : Nat :=
  ((ds ++ ['0', '0', '0']).take 3).foldl (fun a c => a * 10 + (c.toNat - 48)) 0

/-- ISO 8601 time of day `hh:mm[:ss[.frac]]` with hours, minutes, seconds
and milliseconds. -/
def parseHMS (l : List Char) : Option (Nat × Nat × Nat × Nat × List Char) :=
  match takeDigitsN 2 l with
  | some (hh, ':' :: r2) =>
    match takeDigitsN 2 r2 with
    | some (mm, ':' :: r4) =>
      match takeDigitsN 2 r4 with
      | some (ss, '.' :: r6) =>
        match r6.span Char.isDigit with
        | ([], _) => none
        | (ds, r7) => some (hh, mm, ss, fracMs ds, r7)
      | some (ss, r5) => some (hh, mm, ss, 0, r5)
      | none => none
    | some (mm, r3) => some (hh, mm, 0, 0, r3)
    | none => none
  | _ => none

/-- ISO 8601 offset suffix: nothing (local time, identified with UTC in
this model), `Z`, or a signed `hh:mm` offset in minutes. -/
def parseOffset : List Char → Option (Int × List Char)
  | [] => some (0, [])
  | 'Z' :: r => some (0, r)
  | '+' :: r =>
    (match takeDigitsN 2 r with
     | some (oh, ':' :: r2) =>
       match takeDigitsN 2 r2 with
       | some (om, r3) =>
         if oh ≤ 23 ∧ om ≤ 59 then some ((oh * 60 + om : Nat), r3) else none
       | none => none
     | _ => none)
  | '-' :: r =>
    (match takeDigitsN 2 r with
     | some (oh, ':' :: r2) =>
       match takeDigitsN 2 r2 with
       | some (om, r3) =>
         if oh ≤ 23 ∧ om ≤ 59 then some (-((oh * 60 + om : Nat) : Int), r3) else none
       | none => none
     | _ => none)
  | _ => none

/-- Validity of an ISO time of day (hour 24 only at exactly midnight). -/
def validTime (hh mm ss ms : Nat) : Prop :=
  (hh ≤ 23 ∨ (hh = 24 ∧ mm = 0 ∧ ss = 0 ∧ ms = 0)) ∧ mm ≤ 59 ∧ ss ≤ 59

instance (hh mm ss ms : Nat) : Decidable (validTime hh mm ss ms) := by
  unfold validTime; infer_instance

/-- Model of the host date parser on ISO 8601 strings (the format the
ECMAScript specification requires `new Date(string)` to accept): returns
the local calendar date, with local time identified with UTC. Strings
outside the ISO format are unparsable in this model. -/
def parseJsDateString (s : String) : Option (Int × Nat × Nat) :=
  match takeDigitsN 4 s.data with
  | none => none
  | some (y, r1) =>
    match parseMonthDay r1 with
    | none => none
    | some (m, d, r2) =>
      if 1 ≤ m ∧ m ≤ 12 ∧ 1 ≤ d ∧ d ≤ daysInMonth (Int.ofNat y) m then
        match r2 with
        | [] => some (civilFromDays (daysFromCivil (Int.ofNat y) m d))
        | 'T' :: r3 =>
          match parseHMS r3 with
          | none => none
          | some (hh, mm, ss, ms, r4) =>
            match parseOffset r4 with
            | some (offMin, []) =>
              if validTime hh mm ss ms then
                let epochMs : Int :=
                  daysFromCivil (Int.ofNat y) m d * 86400000 +
                  ((hh * 3600 + mm * 60 + ss : Nat) : Int) * 1000 + (ms : Int) -
                  offMin * 60000
                some (civilFromDays (Int.fdiv epochMs 86400000))
              else none
            | _ => none
        | _ => none
      else none

/-- Model of `new Date(value)` reduced to the local calendar date it
denotes: ISO parsing for strings, epoch milliseconds for numbers and
booleans, `none` for an invalid date. -/
def jsNewDate : JsValue → Option (Int × Nat × Nat)
  | .str s => parseJsDateString s
  | .num n => some (civilFromDays (Int.fdiv n 86400000))
  | .bool b => some (civilFromDays (Int.fdiv (if b then 1 else 0) 86400000))
  | .null => some (civilFromDays 0)
  | .undefined => none
  | .arr _ => none
  | .obj _ => none

/-- Three-letter month abbreviation, as the `MMM` pattern of date-fns. -/
def monthAbbrev (m : Nat) : String :=
  (["Jan", "Feb", "Mar", "Apr", "May", "Jun",
    "Jul", "Aug", "Sep", "Oct", "Nov", "Dec"].getD (m - 1) "")

/-- Year rendered by the `yyyy` pattern of date-fns (zero padded to four). -/
def padYear (y : Int) : String :=
  let a := natToString y.natAbs
  (if y < 0 then "-" else "") ++ (⟨List.replicate (4 - a.data.length) '0'⟩ : String) ++ a

/-- Rendering of a civil date by the date-fns pattern `MMM d, yyyy`. -/
def formatDateMMMdyyyy (ymd : Int × Nat × Nat) : String :=
  monthAbbrev ymd.2.1 ++ " " ++ natToString ymd.2.2 ++ ", " ++ padYear ymd.1

/-- Modelled from the spec: the field type carried by a tag definition of
the `use-knowledge-base-tag-definitions` hook (a type absent from the
provided sources), which the spec fixes to text, number, date or boolean. -/
inductive FieldKind where
  | text
  | number
  | date
  | boolean
deriving DecidableEq

/-- The string carried by a field kind, as the `fieldType` property. -/
def FieldKind.str : FieldKind → String
  | .text => "text"
  | .number => "number"
  | .date => "date"
  | .boolean => "boolean"

/-- Modelled from the spec: a tag definition maps a slot name to a
human-readable label and an explicit field type (the `TagDefinition` type
of the hook is absent from the provided sources). -/
structure TagDefinition where
  tagSlot : String
  displayName : String
  fieldType : FieldKind

/-- A document record: the stored value of each named slot, `none` for a
slot that is undefined (the `DocumentData` store type is absent from the
provided sources; per the spec it maps the fixed slots to nullable
primitive values). -/
abbrev DocRecord := String → Option JsValue

/-- From `document-tags-cell.tsx`: the fixed list of tag slot keys, in
declaration order. -/
def TAG_SLOTS : List String :=
  ["tag1", "tag2", "tag3", "tag4", "tag5", "tag6", "tag7",
   "number1", "number2", "number3", "number4", "number5",
   "date1", "date2",
   "boolean1", "boolean2", "boolean3"]

/-- From `document-tags-cell.tsx`: a formatted tag value prepared for
rendering. -/
structure TagValue where
  slot : String
  displayName : String
  value : String
  fieldType : String
deriving DecidableEq

/-- From `document-tags-cell.tsx`, `formatTagValue`: formats a tag value
based on its field type. -/
def formatTagValue (value : JsValue) (fieldType : String) : String :=
  match value with
  | .null => ""
  | .undefined => ""
  | v =>
    match fieldType with
    | "date" =>
      match jsNewDate v with
      | some ymd => formatDateMMMdyyyy ymd
      | none => jsToString v
    | "boolean" => if jsTruthy v then "Yes" else "No"
    | "number" =>
      match v with
      | .num n => localeString n
      | _ => jsToString v
    | _ => jsToString v

/-- From `document-tags-cell.tsx`, `getFieldType`: the field type inferred
from the prefix of a slot name. -/
def getFieldType (slot : String) : String :=
  if strStartsWith slot "tag" then "text"
  else if strStartsWith slot "number" then "number"
  else if strStartsWith slot "date" then "date"
  else if strStartsWith slot "boolean" then "boolean"
  else "text"

/-- The field type used for a slot: `definition?.fieldType ||
getFieldType(slot)` from the component body. -/
def resolvedFieldTypeOf (definition : Option TagDefinition) (slot : String) : String :=
  match definition with
  | some d => jsOr (FieldKind.str d.fieldType) (getFieldType slot)
  | none => getFieldType slot

/-- The display name used for a slot: `definition?.displayName || slot`
from the component body. -/
def displayNameOf (definition : Option TagDefinition) (slot : String) : String :=
  match definition with
  | some d => jsOr d.displayName slot
  | none => slot

/-- The body of one iteration of the tag-collection loop in
`DocumentTagsCell`, for a slot whose stored value is present: the
`value === null || value === undefined` check, the definition lookup, the
formatting, and the emptiness check. -/
def slotTagBody (tagDefinitions : List TagDefinition) (slot : String)
    (value : JsValue) : Option TagValue :=
  if value.isNullish then none
  else
    let definition := tagDefinitions.find? (fun d => d.tagSlot == slot)
    let fieldType := resolvedFieldTypeOf definition slot
    let formattedValue := formatTagValue value fieldType
    if formattedValue = "" then none
    else some { slot := slot
              , displayName := displayNameOf definition slot
              , value := formattedValue
              , fieldType := fieldType }

/-- One iteration of the tag-collection loop in `DocumentTagsCell`: the
formatted tag pushed for a slot, or `none` when the iteration skips it. -/
def slotTag (document : DocRecord) (tagDefinitions : List TagDefinition)
    (slot : String) : Option TagValue :=
  match document slot with
  | none => none
  | some value => slotTagBody tagDefinitions slot value

/-- From `document-tags-cell.tsx`: the `tags` memo of `DocumentTagsCell`,
the formatted tag values collected over `TAG_SLOTS` in declaration order. -/
def computeTags (document : DocRecord) (tagDefinitions : List TagDefinition) :
    List TagValue :=
  TAG_SLOTS.filterMap (slotTag document tagDefinitions)

/-- The overflow affordance rendered by `DocumentTagsCell`: the count shown
in the `+N` badge, the labels its tooltip joins, and the rows of the
popover detail panel. -/
structure OverflowView where
  count : Nat
  tooltipLabels : String
  items : List TagValue
deriving DecidableEq

/-- The render result of `DocumentTagsCell`: the placeholder dash, or the
inline badges and an optional overflow affordance. -/
inductive CellView where
  | dash
  | cell (visible : List TagValue) (overflow : Option OverflowView)
deriving DecidableEq

/-- From `document-tags-cell.tsx`, `DocumentTagsCell`: the rendered cell
as a function of the document record and the tag definitions. -/
def DocumentTagsCell (document : DocRecord) (tagDefinitions : List TagDefinition) :
    CellView :=
  let tags := computeTags document tagDefinitions
  if tags.length = 0 then .dash
  else
    let visibleTags := tags.take 2
    let overflowTags := tags.drop 2
    if overflowTags.length > 0 then
      .cell visibleTags (some { count := overflowTags.length
                              , tooltipLabels := joinSep ", " (overflowTags.map TagValue.displayName)
                              , items := tags })
    else .cell visibleTags none

/-- A record of named input values, as the `Record<string, any>` maps of
the handler (`none` for an absent key). -/
abbrev Inputs := String → Option JsValue

/-- Overwrite one key of a record, as assignment to an object property. -/
def setInput (fi : Inputs) (k : String) (v : JsValue) : Inputs :=
  fun k2 => if k2 = k then some v else fi k2

/-- Spread merge of two records, the second overriding the first, as a
JavaScript object spread. -/
def mergeInputs (a b : Inputs) : Inputs :=
  fun k =>
    match b k with
    | some v => some v
    | none => a k

/-- From `executor/types`: the execution context identifiers the handler
forwards to the tool. -/
structure ExecutionContext where
  workflowId : String
  workspaceId : String
  executionId : String

/-- From `serializer/types`: the fields of a serialized block the handler
reads (`config.tool` and `metadata` flattened). -/
structure SerializedBlock where
  id : String
  configTool : String
  metadataId : Option String
  metadataName : Option String

/-- The field of a tool registry entry the handler reads. -/
structure Tool where
  name : String

/-- One declared input of a block configuration: a bare type string, or an
object schema with an optional `type` property. -/
inductive InputSchema where
  | plain (t : String)
  | objSchema (t : Option String)

/-- The declared type of an input schema entry:
`typeof inputSchema === 'object' ? inputSchema.type : inputSchema`. -/
def InputSchema.typeOf : InputSchema → Option String
  | .plain t => some t
  | .objSchema t => t

/-- The block-type configuration fields the handler reads: the optional
parameter transform `tools.config.params` (its chain of optional accesses
flattened; a throwing transform is an `error` result) and the declared
`inputs` schema entries. -/
structure BlockConfig where
  paramsTransform : Option (Inputs → Except String Inputs)
  inputs : List (String × InputSchema)

/-- A tool execution result, as returned by `executeTool`. -/
structure ToolResult where
  success : Bool
  error : Option String
  output : JsValue

/-- An error object as the handler builds, mutates and rethrows it: the
message and the diagnostic fields it reads or attaches (`none` for a field
that is not set). -/
structure ErrObj where
  message : String
  toolId : Option String
  toolName : Option String
  blockId : Option String
  blockName : Option String
  output : Option JsValue
  timestamp : Option String
  status : Option Int

/-- The environment the handler runs against: the tool registry lookup
`getTool`, the block registry lookup `getBlock`, the external `executeTool`
function (which can throw, modelled by `Except`), and the timestamp
`new Date().toISOString()` currently produces. -/
structure ExecEnv where
  getTool : String → Option Tool
  getBlock : String → Option BlockConfig
  executeTool : String → Inputs → Bool → Bool → ExecutionContext → Except ErrObj ToolResult
  now : String

/-- The parameter-transformation step of `execute`: the transform output
merged over the raw inputs, the raw inputs unchanged when the transform is
absent or throws (the failure is caught and logged). -/
def transformedInputs (bc : BlockConfig) (inputs : Inputs) : Inputs :=
  match bc.paramsTransform with
  | some f =>
    match f inputs with
    | .ok transformedParams => mergeInputs inputs transformedParams
    | .error _ => inputs
  | none => inputs

/-- One iteration of the structured-field coercion loop of `execute`: a
non-blank string value of a `json` or `array` typed field is replaced by
its parsed value; a parse failure is caught and the string retained. -/
def coerceStep (fi : Inputs) (entry : String × InputSchema) : Inputs :=
  match fi entry.1 with
  | some (JsValue.str v) =>
    if (jsTrim v).data.length > 0 then
      if entry.2.typeOf == some "json" || entry.2.typeOf == some "array" then
        match jsonParse (jsTrim v) with
        | some parsed => setInput fi entry.1 parsed
        | none => fi
      else fi
    else fi
  | _ => fi

/-- The structured-field coercion loop of `execute` over the declared
input schema entries. -/
def coerceInputs (schema : List (String × InputSchema)) (inputs : Inputs) : Inputs :=
  schema.foldl coerceStep inputs

/-- The finalized inputs of `execute`: parameter transformation followed by
structured-field coercion, both gated on the block type resolving to a
block configuration. -/
def finalizeInputs (env : ExecEnv) (block : SerializedBlock) (inputs : Inputs) : Inputs :=
  match block.metadataId with
  | some blockType =>
    if blockType != "" then
      match env.getBlock blockType with
      | some blockConfig => coerceInputs blockConfig.inputs (transformedInputs blockConfig inputs)
      | none => inputs
    else inputs
  | none => inputs

/-- The `_context` object the handler adds to the tool call arguments. -/
def contextRecord (ctx : ExecutionContext) : JsValue :=
  .obj [("workflowId", .str ctx.workflowId),
        ("workspaceId", .str ctx.workspaceId),
        ("executionId", .str ctx.executionId)]

/-- The argument record passed to `executeTool`: the finalized inputs plus
the `_context` identifiers. -/
def toolArgs (ctx : ExecutionContext) (finalInputs : Inputs) : Inputs :=
  fun k => if k = "_context" then some (contextRecord ctx) else finalInputs k

/-- The default message when an unsuccessful result carries no error text. -/
def defaultNoErrorMessage (tool : Tool) (block : SerializedBlock) : String :=
  "Block execution of " ++ jsOr tool.name block.configTool ++ " failed with no error message"

/-- The error the handler builds and throws on a result flagged
unsuccessful: the enhanced error text (an empty error string is falsy and
treated as absent), the diagnostic fields and the timestamp. -/
def successFalseError (now : String) (tool : Tool) (block : SerializedBlock)
    (result : ToolResult) : ErrObj :=
  let errorDetails : List String :=
    match result.error with
    | some s => if s != "" then [enhanceCredentialError s] else []
    | none => []
  let errorMessage :=
    match errorDetails with
    | [] => defaultNoErrorMessage tool block
    | ds => joinSep " - " ds
  { message := errorMessage
  , toolId := some block.configTool
  , toolName := some (jsOr tool.name "Unknown tool")
  , blockId := some block.id
  , blockName := some (jsOrOpt block.metadataName "Unnamed Block")
  , output := some (if jsTruthy result.output then result.output else .obj [])
  , timestamp := some now
  , status := none }

/-- The cost restructuring of a successful output: when the output carries
a truthy `cost` member, the response surfaces the cost breakdown and the
token and model fields alongside the rest of the output. -/
def restructureCost (output : JsValue) : JsValue :=
  let cost := optChain output "cost"
  if jsTruthy cost then
    .obj (([("cost", JsValue.obj [("input", optChain cost "input"),
                                  ("output", optChain cost "output"),
                                  ("total", optChain cost "total")]),
            ("tokens", optChain cost "tokens"),
            ("model", optChain cost "model")]).foldl
      (fun acc p => setAssoc acc p.1 p.2)
      (match output with
       | .obj fs => fs
       | _ => []))
  else output

/-- The sentinel placeholder message recognised by the catch block. -/
def sentinelMessage : String := "undefined (undefined)"

/-- The message the catch block synthesizes for an empty or placeholder
message: tool or block name, optional block name suffix, optional status
(taken from the `status` field of the caught error). -/
def synthesizedMessage (tool : Tool) (block : SerializedBlock) (status : Option Int) : String :=
  "Block execution of " ++ jsOr tool.name block.configTool ++ " failed" ++
  (match block.metadataName with
   | some n => if n != "" then ": " ++ n else ""
   | none => "") ++
  (match status with
   | some st => if st != 0 then " (Status: " ++ intToString st ++ ")" else ""
   | none => "")

/-- Truthiness of an optional string field of an error object. -/
def optStrTruthy : Option String → Bool
  | some s => s != ""
  | none => false

/-- The message normalization of the catch block: re-run credential
enhancement on the message (the source replaces the message only when the
enhancement changed it, which yields the same result) and synthesize a
descriptive message when the result is empty or the placeholder. -/
def catchMessageStep (tool : Tool) (block : SerializedBlock) (e : ErrObj) : ErrObj :=
  let m := enhanceCredentialError e.message
  if m = "" ∨ m = sentinelMessage
  then { e with message := synthesizedMessage tool block e.status }
  else { e with message := m }

/-- The catch-block backfill of a missing (absent or empty) `toolId`. -/
def catchBackfillToolId (block : SerializedBlock) (e : ErrObj) : ErrObj :=
  if optStrTruthy e.toolId then e else { e with toolId := some block.configTool }

/-- The catch-block backfill of a missing (absent or empty) `blockName`. -/
def catchBackfillBlockName (block : SerializedBlock) (e : ErrObj) : ErrObj :=
  if optStrTruthy e.blockName then e
  else { e with blockName := some (jsOrOpt block.metadataName "Unnamed Block") }

/-- The catch block of `execute`: message normalization followed by the
diagnostic-field backfills. -/
def catchNormalize (tool : Tool) (block : SerializedBlock) (e0 : ErrObj) : ErrObj :=
  catchBackfillBlockName block (catchBackfillToolId block (catchMessageStep tool block e0))

/-- The body of the `try` block of `execute`: the tool invocation with the
context identifiers, the unsuccessful-result error, and the cost
restructuring of a successful output. -/
def tryBody (env : ExecEnv) (ctx : ExecutionContext) (block : SerializedBlock)
    (tool : Tool) (finalInputs : Inputs) : Except ErrObj JsValue :=
  match env.executeTool block.configTool (toolArgs ctx finalInputs) false false ctx with
  | .error e => .error e
  | .ok result =>
    if result.success then .ok (restructureCost result.output)
    else .error (successFalseError env.now tool block result)

/-- From `google-vault-handler.ts`, `GoogleVaultBlockHandler.execute`:
tool resolution, input finalization, tool invocation and error
normalization. A raised error is an `error` result. -/
def execute (env : ExecEnv) (ctx : ExecutionContext) (block : SerializedBlock)
    (inputs : Inputs) : Except ErrObj JsValue :=
  match env.getTool block.configTool with
  | none =>
    .error { message := "Tool not found: " ++ block.configTool
           , toolId := none, toolName := none, blockId := none
           , blockName := none, output := none, timestamp := none, status := none }
  | some tool =>
    match tryBody env ctx block tool (finalizeInputs env block inputs) with
    | .ok v => .ok v
    | .error e => .error (catchNormalize tool block e)

/-- From `google-vault-handler.ts`, `GoogleVaultBlockHandler.canHandle`. -/
def canHandle (block : SerializedBlock) : Bool :=
  block.metadataId == some "google_vault"

/-- Modelled from the spec: `enhanceGoogleVaultError` from
`tools/google_vault/utils` (absent from the provided sources), the shared
credential-error enhancement routine with the detection and replacement
behaviour the spec describes, as implemented by `enhanceCredentialError`. -/
def enhanceGoogleVaultError (message : String) : String :=
  enhanceCredentialError message

/-- From `tools/google_vault/types` (via the descriptor): the parameters
of the create-matters tool. -/
structure GoogleVaultCreateMattersParams where
  accessToken : String
  name : String
  description : Option String

/-- An outbound HTTP request as the descriptor declares it. A body entry
carrying `none` models a property whose value is `undefined` (the optional
description), which JSON serialization omits. -/
structure HttpRequest where
  url : String
  method : String
  headers : List (String × String)
  body : List (String × Option JsValue)

/-- An HTTP response as `transformResponse` consumes it: the success flag
`ok` and the parsed JSON body. -/
structure HttpResponse where
  ok : Bool
  jsonData : JsValue

/-- JavaScript `v || dflt` collapsed to a string, as the error-message
fallback in `transformResponse`. -/
def jsOrElse (v : JsValue) (dflt : String) : String :=
  if jsTruthy v then jsToString v else dflt

/-- From `createMattersTool.request`: one POST to the fixed matters URL,
bearer authenticated, with the name and the optional description. -/
def createMattersRequest (params : GoogleVaultCreateMattersParams) : HttpRequest :=
  { url := "https://vault.googleapis.com/v1/matters"
  , method := "POST"
  , headers := [("Authorization", "Bearer " ++ params.accessToken),
                ("Content-Type", "application/json")]
  , body := [("name", some (JsValue.str params.name)),
             ("description", params.description.map JsValue.str)] }

/-- From `createMattersTool.transformResponse`: on a non-success status,
throw the nested error message (or the default) passed through the shared
enhancement; on success, return the response JSON under the key `matter`. -/
def createMattersTransformResponse (response : HttpResponse) : Except String JsValue :=
  let data := response.jsonData
  if response.ok = false then
    let errorMessage := jsOrElse (optChain (optChain data "error") "message") "Failed to create matter"
    .error (enhanceGoogleVaultError errorMessage)
  else
    .ok (.obj [("matter", data)])

/-- An OAuth declaration of a tool descriptor. -/
structure OAuthConfig where
  required : Bool
  provider : String

/-- One parameter declaration of a tool descriptor. -/
structure ParamDecl where
  type : String
  required : Bool
  visibility : String

/-- The shape of the create-matters tool descriptor: its static identity
and declarations, its single request builder and its response transform. -/
structure CreateMattersToolDef where
  id : String
  name : String
  description : String
  version : String
  oauth : OAuthConfig
  params : List (String × ParamDecl)
  request : GoogleVaultCreateMattersParams → HttpRequest
  transformResponse : HttpResponse → Except String JsValue
  outputs : List (String × String)

/-- From the unnamed source file, `createMattersTool`: the declarative
create-matters tool descriptor. -/
def createMattersTool : CreateMattersToolDef :=
  { id := "create_matters"
  , name := "Vault Create Matter"
  , description := "Create a new matter in Google Vault"
  , version := "1.0"
  , oauth := { required := true, provider := "google-vault" }
  , params := [("accessToken", { type := "string", required := true, visibility := "hidden" }),
               ("name", { type := "string", required := true, visibility := "user-only" }),
               ("description", { type := "string", required := false, visibility := "user-only" })]
  , request := createMattersRequest
  , transformResponse := createMattersTransformResponse
  , outputs := [("matter", "json")] }

/-- Block configuration for the C4 witness, with a throwing transform. -/
def C4wBC : BlockConfig :=
  { paramsTransform := some (fun _ => .error "transform failed"), inputs := [] }

/-- Concrete raw inputs for the C4 witness. -/
def C4wInputs : Inputs := fun _ => none

/-- Concrete environment for the C3 witness: a block configuration with a
single json-typed field. -/
def C3wEnv : ExecEnv :=
  { getTool := fun _ => none
  , getBlock := fun _ => some { paramsTransform := none
                              , inputs := [("data", InputSchema.plain "json")] }
  , executeTool := fun _ _ _ _ _ => .ok { success := true, error := none, output := .null }
  , now := "" }

/-- Concrete block for the C3 witness. -/
def C3wBlock : SerializedBlock :=
  { id := "b1", configTool := "t1", metadataId := some "google_vault", metadataName := none }

/-- Concrete inputs for the C3 witness: a JSON document supplied as a string. -/
def C3wInputs : Inputs :=
  fun k => if k = "data" then some (JsValue.str " \x7b\"a\":1\x7d ") else none

/-- Concrete environment for the C2 counterexample: the tool execution
reports failure with the placeholder error string. -/
def C2cEnv : ExecEnv :=
  { getTool := fun _ => some { name := "T" }
  , getBlock := fun _ => none
  , executeTool := fun _ _ _ _ _ =>
      .ok { success := false, error := some "undefined (undefined)", output := .obj [] }
  , now := "TS" }

def C2cCtx : ExecutionContext := { workflowId := "w", workspaceId := "s", executionId := "e" }

def C2cBlock : SerializedBlock :=
  { id := "b1", configTool := "tool1", metadataId := some "google_vault", metadataName := some "B" }

/-- Concrete environment for the C2 witness: the tool execution reports
failure with a token-refresh error. -/
def C2wEnv : ExecEnv :=
  { getTool := fun _ => some { name := "T" }
  , getBlock := fun _ => none
  , executeTool := fun _ _ _ _ _ =>
      .ok { success := false, error := some "failed to refresh token", output := .null }
  , now := "TS" }

/-- Concrete block for the C2 witness. -/
def C2wBlock : SerializedBlock :=
  { id := "b2", configTool := "tool2", metadataId := none, metadataName := none }

/-- Concrete document for the C5 witness: three qualifying text tags. -/
def C5wDoc : DocRecord :=
  fun s => if s = "tag1" then some (JsValue.str "a")
           else if s = "tag2" then some (JsValue.str "b")
           else if s = "tag3" then some (JsValue.str "c")
           else none

/-- Concrete tag definitions for the C6 witness. -/
def C6wDefs : List TagDefinition :=
  [{ tagSlot := "tag2", displayName := "Category", fieldType := FieldKind.text }]

/-- Concrete document for the C6 witness. -/
def C6wDoc : DocRecord :=
  fun s => if s = "tag2" then some (JsValue.str "news")
           else if s = "date1" then some (JsValue.str "2024-03-05")
           else none

/-- Concrete document for the C10 witness. -/
def C10wDoc : DocRecord :=
  fun s => if s = "boolean1" then some (JsValue.bool false)
           else if s = "number1" then some (JsValue.num 0)
           else if s = "tag1" then some (JsValue.str "")
           else none

/-- Concrete parameters for the C8 witness. -/
def C8wParams : GoogleVaultCreateMattersParams :=
  { accessToken := "tok", name := "Matter A", description := none }

lemma isCredentialRefreshError_remediation : isCredentialRefreshError remediationMessage = false := by
  decide

lemma enhance_eq_of_trigger {s : String} (h : isCredentialRefreshError s = true) :
    enhanceCredentialError s = remediationMessage := by
  simp [enhanceCredentialError, h]

lemma enhance_eq_of_no_trigger {s : String} (h : isCredentialRefreshError s = false) :
    enhanceCredentialError s = s := by
  simp [enhanceCredentialError, h]

theorem C1_credential_error_enhancement (s : String) :
    ((strContains (jsToLowerCase s) "invalid_rapt" ||
      strContains (jsToLowerCase s) "reauth related error" ||
      (strContains (jsToLowerCase s) "invalid_grant" &&
       strContains (jsToLowerCase s) "rapt") ||
      strContains (jsToLowerCase s) "failed to refresh token" ||
      (strContains (jsToLowerCase s) "failed to fetch access token" &&
       strContains (jsToLowerCase s) "401")) = true →
      enhanceCredentialError s = remediationMessage) ∧
    ((strContains (jsToLowerCase s) "invalid_rapt" ||
      strContains (jsToLowerCase s) "reauth related error" ||
      (strContains (jsToLowerCase s) "invalid_grant" &&
       strContains (jsToLowerCase s) "rapt") ||
      strContains (jsToLowerCase s) "failed to refresh token" ||
      (strContains (jsToLowerCase s) "failed to fetch access token" &&
       strContains (jsToLowerCase s) "401")) = false →
      enhanceCredentialError s = s) ∧
    strContains remediationMessage "Reauthentication policy" = true := by
  refine ⟨fun h => enhance_eq_of_trigger ?_, fun h => enhance_eq_of_no_trigger ?_, by decide⟩
  · exact h
  · exact h

/-- Witness for C1 at concrete inputs: a triggering message is replaced by
the remediation message and an unrelated message passes through unchanged. -/
theorem C1_witness :
    enhanceCredentialError "invalid_rapt detected" = remediationMessage ∧
    enhanceCredentialError "rate limit exceeded" = "rate limit exceeded" :=
  ⟨(C1_credential_error_enhancement "invalid_rapt detected").1 (by decide),
   (C1_credential_error_enhancement "rate limit exceeded").2.1 (by decide)⟩

lemma coerceStep_str {fi : Inputs} {entry : String × InputSchema} {s : String}
    (hv : fi entry.1 = some (JsValue.str s)) :
    coerceStep fi entry =
      if (jsTrim s).data.length > 0 then
        if entry.2.typeOf == some "json" || entry.2.typeOf == some "array" then
          match jsonParse (jsTrim s) with
          | some parsed => setInput fi entry.1 parsed
          | none => fi
        else fi
      else fi := by
  unfold coerceStep
  rw [hv]

lemma coerceStep_ne {fi : Inputs} {entry : String × InputSchema} {k : String}
    (h : entry.1 ≠ k) : coerceStep fi entry k = fi k := by
  have h2 : k ≠ entry.1 := Ne.symm h
  cases hv : fi entry.1 with
  | none => simp [coerceStep, hv]
  | some v =>
    cases v with
    | null => simp [coerceStep, hv]
    | undefined => simp [coerceStep, hv]
    | bool b => simp [coerceStep, hv]
    | num n => simp [coerceStep, hv]
    | arr es => simp [coerceStep, hv]
    | obj fs => simp [coerceStep, hv]
    | str s =>
      rw [coerceStep_str hv]
      by_cases hlen : (jsTrim s).data.length > 0
      · rw [if_pos hlen]
        by_cases hty : (entry.2.typeOf == some "json" || entry.2.typeOf == some "array") = true
        · rw [if_pos hty]
          cases hp : jsonParse (jsTrim s) with
          | some v2 => simp [setInput, h2]
          | none => rfl
        · rw [if_neg hty]
      · rw [if_neg hlen]

lemma coerce_preserve {schema : List (String × InputSchema)} {fi : Inputs} {k : String}
    (h : ∀ e ∈ schema, e.1 ≠ k) : coerceInputs schema fi k = fi k := by
  induction schema generalizing fi with
  | nil => rfl
  | cons e rest ih =>
    have h1 : e.1 ≠ k := h e (by simp)
    have h2 : ∀ e2 ∈ rest, e2.1 ≠ k := fun e2 he => h e2 (by simp [he])
    calc coerceInputs (e :: rest) fi k
        = coerceInputs rest (coerceStep fi e) k := rfl
      _ = (coerceStep fi e) k := ih h2
      _ = fi k := coerceStep_ne h1

lemma coerce_get {pre post : List (String × InputSchema)} {k : String} {sch : InputSchema}
    {fi : Inputs} {s : String}
    (hpre : ∀ e ∈ pre, e.1 ≠ k) (hpost : ∀ e ∈ post, e.1 ≠ k)
    (hty : (sch.typeOf == some "json" || sch.typeOf == some "array") = true)
    (hv : fi k = some (JsValue.str s)) :
    coerceInputs (pre ++ (k, sch) :: post) fi k =
      match jsonParse (jsTrim s) with
      | some v => some v
      | none => some (JsValue.str s) := by
  have hfold : coerceInputs (pre ++ (k, sch) :: post) fi =
      coerceInputs post (coerceStep (coerceInputs pre fi) (k, sch)) := by
    simp [coerceInputs, List.foldl_append]
  have hv2 : (coerceInputs pre fi) k = some (JsValue.str s) := by
    rw [coerce_preserve hpre, hv]
  rw [hfold, coerce_preserve hpost]
  rw [coerceStep_str (show ((coerceInputs pre fi) (k, sch).1) = some (JsValue.str s) from hv2)]
  by_cases hlen : (jsTrim s).data.length > 0
  · rw [if_pos hlen, if_pos hty]
    cases hp : jsonParse (jsTrim s) with
    | some v => simp [hp, setInput]
    | none => simp [hp, hv2]
  · rw [if_neg hlen]
    have hnil : jsTrim s = "" := by
      have hz : (jsTrim s).data.length = 0 := Nat.eq_zero_of_not_pos hlen
      have hd : (jsTrim s).data = [] := List.length_eq_zero.mp hz
      cases hq : jsTrim s with
      | mk data =>
        rw [hq] at hd
        simp only at hd
        rw [hd]
    rw [hnil]
    simp only [show jsonParse "" = none from rfl]
    exact hv2

theorem C4_parameter_transform (bc : BlockConfig) (inputs : Inputs)
    (f : Inputs → Except String Inputs) (hf : bc.paramsTransform = some f) :
    (∀ t, f inputs = .ok t → transformedInputs bc inputs = mergeInputs inputs t) ∧
    (∀ msg, f inputs = .error msg → transformedInputs bc inputs = inputs) ∧
    (∀ (env : ExecEnv) (block : SerializedBlock) (bt : String),
      block.metadataId = some bt → bt ≠ "" → env.getBlock bt = some bc →
      finalizeInputs env block inputs = coerceInputs bc.inputs (transformedInputs bc inputs)) := by
  refine ⟨fun t ht => ?_, fun msg hmsg => ?_, fun env block bt hbt hbt2 hbc => ?_⟩
  · simp [transformedInputs, hf, ht]
  · simp [transformedInputs, hf, hmsg]
  · unfold finalizeInputs
    rw [hbt]
    simp [hbt2, hbc]

theorem C4_witness : transformedInputs C4wBC C4wInputs = C4wInputs :=
  (C4_parameter_transform C4wBC C4wInputs (fun _ => .error "transform failed") rfl).2.1
    "transform failed" rfl

theorem C3_structured_field_coercion (env : ExecEnv) (block : SerializedBlock)
    (inputs : Inputs) (bt : String) (bc : BlockConfig)
    (pre post : List (String × InputSchema)) (k : String) (sch : InputSchema) (s : String)
    (hbt : block.metadataId = some bt) (hbt2 : bt ≠ "")
    (hbc : env.getBlock bt = some bc)
    (hschema : bc.inputs = pre ++ (k, sch) :: post)
    (hpre : ∀ e ∈ pre, e.1 ≠ k) (hpost : ∀ e ∈ post, e.1 ≠ k)
    (hty : (sch.typeOf == some "json" || sch.typeOf == some "array") = true)
    (hval : transformedInputs bc inputs k = some (JsValue.str s)) :
    finalizeInputs env block inputs k =
      match jsonParse (jsTrim s) with
      | some v => some v
      | none => some (JsValue.str s) := by
  unfold finalizeInputs
  rw [hbt]
  simp only [hbt2, hbc, bne_iff_ne, ne_eq, not_false_iff, if_true]
  rw [hschema]
  exact coerce_get hpre hpost hty hval

theorem C3_witness :
    finalizeInputs C3wEnv C3wBlock C3wInputs "data" = some (JsValue.obj [("a", JsValue.num 1)]) := by
  have h := C3_structured_field_coercion C3wEnv C3wBlock C3wInputs "google_vault"
    { paramsTransform := none, inputs := [("data", InputSchema.plain "json")] }
    [] [] "data" (InputSchema.plain "json") " \x7b\"a\":1\x7d "
    rfl (by decide) rfl rfl (by simp) (by simp) (by decide) rfl
  exact h.trans rfl

lemma enhance_idem (s : String) :
    enhanceCredentialError (enhanceCredentialError s) = enhanceCredentialError s := by
  cases h : isCredentialRefreshError s with
  | true =>
    rw [enhance_eq_of_trigger h, enhance_eq_of_no_trigger isCredentialRefreshError_remediation]
  | false => rw [enhance_eq_of_no_trigger h, enhance_eq_of_no_trigger h]

lemma defaultNoErrorMessage_ne_empty (tool : Tool) (block : SerializedBlock) :
    defaultNoErrorMessage tool block ≠ "" := by
  intro h
  have h2 : (defaultNoErrorMessage tool block).data.head? = ("" : String).data.head? := by
    rw [h]
  have h3 : (defaultNoErrorMessage tool block).data.head? = some 'B' := rfl
  rw [h3] at h2
  exact absurd h2 (by decide)

lemma defaultNoErrorMessage_ne_sentinel (tool : Tool) (block : SerializedBlock) :
    defaultNoErrorMessage tool block ≠ sentinelMessage := by
  intro h
  have h2 : (defaultNoErrorMessage tool block).data.head? = sentinelMessage.data.head? := by
    rw [h]
  have h3 : (defaultNoErrorMessage tool block).data.head? = some 'B' := rfl
  rw [h3] at h2
  exact absurd h2 (by decide)

lemma catchMessageStep_fixed (tool : Tool) (block : SerializedBlock) (e0 : ErrObj)
    (hmsg : enhanceCredentialError e0.message = e0.message)
    (hne : e0.message ≠ "") (hns : e0.message ≠ sentinelMessage) :
    catchMessageStep tool block e0 = e0 := by
  unfold catchMessageStep
  simp only [hmsg]
  rw [if_neg (fun hc => hc.elim hne hns)]

lemma catchBackfillToolId_fixed (block : SerializedBlock) (e : ErrObj)
    (h : e.toolId = some block.configTool) :
    catchBackfillToolId block e = e := by
  unfold catchBackfillToolId
  by_cases hc : optStrTruthy e.toolId
  · rw [if_pos hc]
  · rw [if_neg hc, ← h]

lemma catchBackfillBlockName_fixed (block : SerializedBlock) (e : ErrObj)
    (h : e.blockName = some (jsOrOpt block.metadataName "Unnamed Block")) :
    catchBackfillBlockName block e = e := by
  unfold catchBackfillBlockName
  by_cases hc : optStrTruthy e.blockName
  · rw [if_pos hc]
  · rw [if_neg hc, ← h]

lemma catchNormalize_fixed (tool : Tool) (block : SerializedBlock) (e0 : ErrObj)
    (hmsg : enhanceCredentialError e0.message = e0.message)
    (hne : e0.message ≠ "") (hns : e0.message ≠ sentinelMessage)
    (htid : e0.toolId = some block.configTool)
    (hbn : e0.blockName = some (jsOrOpt block.metadataName "Unnamed Block")) :
    catchNormalize tool block e0 = e0 := by
  unfold catchNormalize
  rw [catchMessageStep_fixed tool block e0 hmsg hne hns,
    catchBackfillToolId_fixed block e0 htid, catchBackfillBlockName_fixed block e0 hbn]

lemma successFalseError_message_none (now : String) (tool : Tool) (block : SerializedBlock)
    (result : ToolResult) (h : result.error = none) :
    (successFalseError now tool block result).message = defaultNoErrorMessage tool block := by
  simp [successFalseError, h]

lemma successFalseError_message_empty (now : String) (tool : Tool) (block : SerializedBlock)
    (result : ToolResult) (h : result.error = some "") :
    (successFalseError now tool block result).message = defaultNoErrorMessage tool block := by
  simp [successFalseError, h]

lemma successFalseError_message_some (now : String) (tool : Tool) (block : SerializedBlock)
    (result : ToolResult) (s : String) (h : result.error = some s) (hs : s ≠ "") :
    (successFalseError now tool block result).message = enhanceCredentialError s := by
  simp [successFalseError, h, hs, joinSep]

theorem C2_counterexample :
    (∃ e : ErrObj, execute C2cEnv C2cCtx C2cBlock (fun _ => none) = Except.error e ∧
      e.message = "Block execution of T failed: B") ∧
    enhanceCredentialError "undefined (undefined)" = "undefined (undefined)" ∧
    "Block execution of T failed: B" ≠ "undefined (undefined)" :=
  ⟨⟨{ message := "Block execution of T failed: B"
    , toolId := some "tool1"
    , toolName := some "T"
    , blockId := some "b1"
    , blockName := some "B"
    , output := some (JsValue.obj [])
    , timestamp := some "TS"
    , status := none }, rfl, rfl⟩, by decide, by decide⟩

theorem C2_unsuccessful_result_error (env : ExecEnv) (ctx : ExecutionContext)
    (block : SerializedBlock) (inputs : Inputs) (tool : Tool) (result : ToolResult)
    (h1 : env.getTool block.configTool = some tool)
    (h2 : env.executeTool block.configTool (toolArgs ctx (finalizeInputs env block inputs))
            false false ctx = Except.ok result)
    (h3 : result.success = false)
    (h4 : result.error ≠ some sentinelMessage)
    (h5 : isCredentialRefreshError (defaultNoErrorMessage tool block) = false) :
    ∃ e : ErrObj, execute env ctx block inputs = Except.error e ∧
      e.message = (match result.error with
        | some s => if s = "" then defaultNoErrorMessage tool block
                    else enhanceCredentialError s
        | none => defaultNoErrorMessage tool block) ∧
      e.toolId = some block.configTool ∧
      e.toolName = some (jsOr tool.name "Unknown tool") ∧
      e.blockId = some block.id ∧
      e.blockName = some (jsOrOpt block.metadataName "Unnamed Block") ∧
      e.output = some (if jsTruthy result.output then result.output else JsValue.obj []) ∧
      e.timestamp = some env.now := by
  have hexec : execute env ctx block inputs =
      Except.error (catchNormalize tool block (successFalseError env.now tool block result)) := by
    simp [execute, h1, tryBody, h2, h3]
  cases he : result.error with
  | none =>
    have hm := successFalseError_message_none env.now tool block result he
    have hfix : catchNormalize tool block (successFalseError env.now tool block result) =
        successFalseError env.now tool block result := by
      apply catchNormalize_fixed
      · rw [hm]
        exact enhance_eq_of_no_trigger h5
      · rw [hm]
        exact defaultNoErrorMessage_ne_empty tool block
      · rw [hm]
        exact defaultNoErrorMessage_ne_sentinel tool block
      · rfl
      · rfl
    refine ⟨successFalseError env.now tool block result, ?_, ?_, rfl, rfl, rfl, rfl, rfl, rfl⟩
    · rw [hexec, hfix]
    · rw [hm]
  | some s =>
    by_cases hs : s = ""
    · subst hs
      have hm := successFalseError_message_empty env.now tool block result he
      have hfix : catchNormalize tool block (successFalseError env.now tool block result) =
          successFalseError env.now tool block result := by
        apply catchNormalize_fixed
        · rw [hm]
          exact enhance_eq_of_no_trigger h5
        · rw [hm]
          exact defaultNoErrorMessage_ne_empty tool block
        · rw [hm]
          exact defaultNoErrorMessage_ne_sentinel tool block
        · rfl
        · rfl
      refine ⟨successFalseError env.now tool block result, ?_, ?_, rfl, rfl, rfl, rfl, rfl, rfl⟩
      · rw [hexec, hfix]
      · rw [hm]
        simp
    · have hm := successFalseError_message_some env.now tool block result s he hs
      have hss : s ≠ sentinelMessage := fun hss => h4 (by rw [he, hss])
      have hfix : catchNormalize tool block (successFalseError env.now tool block result) =
          successFalseError env.now tool block result := by
        apply catchNormalize_fixed
        · rw [hm]
          exact enhance_idem s
        · rw [hm]
          cases ht : isCredentialRefreshError s with
          | true => rw [enhance_eq_of_trigger ht]; decide
          | false => rw [enhance_eq_of_no_trigger ht]; exact hs
        · rw [hm]
          cases ht : isCredentialRefreshError s with
          | true => rw [enhance_eq_of_trigger ht]; decide
          | false => rw [enhance_eq_of_no_trigger ht]; exact hss
        · rfl
        · rfl
      refine ⟨successFalseError env.now tool block result, ?_, ?_, rfl, rfl, rfl, rfl, rfl, rfl⟩
      · rw [hexec, hfix]
      · rw [hm]
        simp [hs]

theorem C2_witness :
    ∃ e : ErrObj, execute C2wEnv C2cCtx C2wBlock (fun _ => none) = Except.error e ∧
      e.message = enhanceCredentialError "failed to refresh token" ∧
      e.toolId = some "tool2" ∧
      e.toolName = some "T" ∧
      e.blockId = some "b2" ∧
      e.blockName = some "Unnamed Block" ∧
      e.output = some (JsValue.obj []) ∧
      e.timestamp = some "TS" := by
  obtain ⟨e, he, hm, f1, f2, f3, f4, f5, f6⟩ :=
    C2_unsuccessful_result_error C2wEnv C2cCtx C2wBlock (fun _ => none) { name := "T" }
      { success := false, error := some "failed to refresh token", output := JsValue.null }
      rfl rfl rfl (by decide) (by decide)
  exact ⟨e, he, hm, f1, f2, f3, f4, f5, f6⟩

/-- C9: the credential-error enhancement routine is idempotent, because the
fixed remediation message it substitutes does not itself contain any of the
trigger substrings. -/
theorem C9_enhancement_idempotent (s : String) :
    enhanceCredentialError (enhanceCredentialError s) = enhanceCredentialError s ∧
    isCredentialRefreshError remediationMessage = false := by
  refine ⟨?_, isCredentialRefreshError_remediation⟩
  cases h : isCredentialRefreshError s with
  | true =>
    rw [enhance_eq_of_trigger h, enhance_eq_of_no_trigger isCredentialRefreshError_remediation]
  | false =>
    rw [enhance_eq_of_no_trigger h, enhance_eq_of_no_trigger h]

lemma FieldKind_str_ne_empty (k : FieldKind) : FieldKind.str k ≠ "" := by
  cases k <;> decide

lemma resolvedFieldTypeOf_eq (definition : Option TagDefinition) (slot : String) :
    resolvedFieldTypeOf definition slot =
      match definition with
      | some d => FieldKind.str d.fieldType
      | none => getFieldType slot := by
  cases definition with
  | none => rfl
  | some d => simp [resolvedFieldTypeOf, jsOr, FieldKind_str_ne_empty d.fieldType]

lemma slotTag_none {doc : DocRecord} {defs : List TagDefinition} {slot : String}
    (hv : doc slot = none) : slotTag doc defs slot = none := by
  unfold slotTag
  rw [hv]

lemma slotTag_some {doc : DocRecord} {defs : List TagDefinition} {slot : String}
    {v : JsValue} (hv : doc slot = some v) :
    slotTag doc defs slot = slotTagBody defs slot v := by
  unfold slotTag
  rw [hv]

lemma slotTagBody_eq (defs : List TagDefinition) (slot : String) (v : JsValue) :
    slotTagBody defs slot v =
      if v.isNullish then none
      else if formatTagValue v
          (resolvedFieldTypeOf (defs.find? (fun d => d.tagSlot == slot)) slot) = "" then none
      else some
        { slot := slot
        , displayName := displayNameOf (defs.find? (fun d => d.tagSlot == slot)) slot
        , value := formatTagValue v
            (resolvedFieldTypeOf (defs.find? (fun d => d.tagSlot == slot)) slot)
        , fieldType := resolvedFieldTypeOf (defs.find? (fun d => d.tagSlot == slot)) slot } :=
  rfl

lemma slotTag_eq_some_iff {doc : DocRecord} {defs : List TagDefinition} {slot : String}
    {t : TagValue} :
    slotTag doc defs slot = some t ↔
      ∃ v, doc slot = some v ∧ v.isNullish = false ∧
        formatTagValue v
          (resolvedFieldTypeOf (defs.find? (fun d => d.tagSlot == slot)) slot) ≠ "" ∧
        t = { slot := slot
            , displayName := displayNameOf (defs.find? (fun d => d.tagSlot == slot)) slot
            , value := formatTagValue v
                (resolvedFieldTypeOf (defs.find? (fun d => d.tagSlot == slot)) slot)
            , fieldType := resolvedFieldTypeOf (defs.find? (fun d => d.tagSlot == slot)) slot } := by
  constructor
  · intro h
    cases hv : doc slot with
    | none => rw [slotTag_none hv] at h; exact absurd h (by simp)
    | some v =>
      rw [slotTag_some hv, slotTagBody_eq] at h
      by_cases hn : v.isNullish
      · rw [if_pos hn] at h
        exact absurd h (by simp)
      · rw [if_neg hn] at h
        by_cases hf : formatTagValue v
            (resolvedFieldTypeOf (defs.find? (fun d => d.tagSlot == slot)) slot) = ""
        · rw [if_pos hf] at h
          exact absurd h (by simp)
        · rw [if_neg hf] at h
          have hnn : v.isNullish = false := by
            revert hn
            cases v.isNullish <;> simp
          exact ⟨v, rfl, hnn, hf, (Option.some.inj h).symm⟩
  · rintro ⟨v, hv, hnn, hf, ht⟩
    rw [slotTag_some hv, slotTagBody_eq, if_neg (by simp [hnn]), if_neg hf, ht]

lemma slotTag_slot {doc : DocRecord} {defs : List TagDefinition} {slot : String}
    {t : TagValue} (h : slotTag doc defs slot = some t) : t.slot = slot := by
  obtain ⟨v, _, _, _, ht⟩ := slotTag_eq_some_iff.mp h
  rw [ht]

lemma mem_computeTags {doc : DocRecord} {defs : List TagDefinition} {t : TagValue} :
    t ∈ computeTags doc defs ↔ ∃ slot ∈ TAG_SLOTS, slotTag doc defs slot = some t := by
  simp [computeTags, List.mem_filterMap]

lemma filterMap_map_sublist {α β : Type} (l : List α) (f : α → Option β) (g : β → α)
    (hf : ∀ a b, f a = some b → g b = a) : ((l.filterMap f).map g).Sublist l := by
  induction l with
  | nil => simp
  | cons a rest ih =>
    cases hfa : f a with
    | none =>
      rw [List.filterMap_cons_none hfa]
      exact (ih).cons a
    | some b =>
      rw [List.filterMap_cons_some hfa]
      rw [List.map_cons, hf a b hfa]
      exact (ih).cons₂ a

theorem C5_overflow_invariant (doc : DocRecord) (defs : List TagDefinition) :
    (computeTags doc defs = [] → DocumentTagsCell doc defs = CellView.dash) ∧
    (computeTags doc defs ≠ [] → (computeTags doc defs).length ≤ 2 →
      DocumentTagsCell doc defs = CellView.cell (computeTags doc defs) none) ∧
    ((computeTags doc defs).length > 2 →
      ∃ ov : OverflowView,
        DocumentTagsCell doc defs =
          CellView.cell ((computeTags doc defs).take 2) (some ov) ∧
        ov.count = (computeTags doc defs).length - 2 ∧
        ov.items = computeTags doc defs) := by
  refine ⟨fun h => ?_, fun h1 h2 => ?_, fun h3 => ?_⟩
  · simp [DocumentTagsCell, h]
  · have hlen0 : ¬(computeTags doc defs).length = 0 := by
      simpa [List.length_eq_zero] using h1
    simp only [DocumentTagsCell]
    rw [if_neg hlen0]
    have hdrop : (computeTags doc defs).drop 2 = [] := List.drop_of_length_le h2
    rw [List.take_of_length_le h2, hdrop]
    simp
  · have hlen0 : ¬(computeTags doc defs).length = 0 := by omega
    have hd : ((computeTags doc defs).drop 2).length = (computeTags doc defs).length - 2 :=
      List.length_drop 2 _
    have hpos : ((computeTags doc defs).drop 2).length > 0 := by omega
    simp only [DocumentTagsCell]
    rw [if_neg hlen0, if_pos hpos]
    exact ⟨_, rfl, hd, rfl⟩

theorem C5_witness :
    ∃ ov : OverflowView,
      DocumentTagsCell C5wDoc [] =
        CellView.cell ((computeTags C5wDoc []).take 2) (some ov) ∧
      ov.count = (computeTags C5wDoc []).length - 2 ∧
      ov.items = computeTags C5wDoc [] :=
  (C5_overflow_invariant C5wDoc []).2.2 (by decide)

theorem C6_qualifying_tags (doc : DocRecord) (defs : List TagDefinition)
    (hdn : ∀ d ∈ defs, d.displayName ≠ "") :
    TAG_SLOTS = ["tag1", "tag2", "tag3", "tag4", "tag5", "tag6", "tag7",
      "number1", "number2", "number3", "number4", "number5",
      "date1", "date2", "boolean1", "boolean2", "boolean3"] ∧
    ((computeTags doc defs).map TagValue.slot).Sublist TAG_SLOTS ∧
    (∀ slot ∈ TAG_SLOTS,
      ((∃ t ∈ computeTags doc defs, t.slot = slot) ↔
        (∃ v, doc slot = some v ∧ v.isNullish = false ∧
          formatTagValue v
            (resolvedFieldTypeOf (defs.find? (fun d => d.tagSlot == slot)) slot) ≠ ""))) ∧
    (∀ t ∈ computeTags doc defs,
      t.fieldType = (match defs.find? (fun d => d.tagSlot == t.slot) with
        | some d => FieldKind.str d.fieldType
        | none => getFieldType t.slot) ∧
      t.displayName = (match defs.find? (fun d => d.tagSlot == t.slot) with
        | some d => d.displayName
        | none => t.slot)) := by
  refine ⟨rfl, ?_, ?_, ?_⟩
  · exact filterMap_map_sublist TAG_SLOTS (slotTag doc defs) TagValue.slot
      (fun a b hb => slotTag_slot hb)
  · intro slot hslot
    constructor
    · rintro ⟨t, htm, hteq⟩
      obtain ⟨slot2, hs2, hst⟩ := mem_computeTags.mp htm
      have h2 : slot2 = slot := by rw [← hteq, slotTag_slot hst]
      subst h2
      obtain ⟨v, hv, hnn, hfne, _⟩ := slotTag_eq_some_iff.mp hst
      exact ⟨v, hv, hnn, hfne⟩
    · rintro ⟨v, hv, hnn, hfne⟩
      exact ⟨_, mem_computeTags.mpr
        ⟨slot, hslot, slotTag_eq_some_iff.mpr ⟨v, hv, hnn, hfne, rfl⟩⟩, rfl⟩
  · intro t htm
    obtain ⟨slot2, hs2, hst⟩ := mem_computeTags.mp htm
    obtain ⟨v, hv, hnn, hfne, hteq⟩ := slotTag_eq_some_iff.mp hst
    subst hteq
    cases hfind : defs.find? (fun d => d.tagSlot == slot2) with
    | none => exact ⟨rfl, rfl⟩
    | some d =>
      have hd : d ∈ defs := List.mem_of_find?_eq_some hfind
      constructor
      · show resolvedFieldTypeOf (some d) slot2 = FieldKind.str d.fieldType
        simp [resolvedFieldTypeOf, jsOr, FieldKind_str_ne_empty d.fieldType]
      · show displayNameOf (some d) slot2 = d.displayName
        simp [displayNameOf, jsOr, hdn d hd]

theorem C6_witness :
    (∀ d ∈ C6wDefs, d.displayName ≠ "") ∧
    ((computeTags C6wDoc C6wDefs).map TagValue.slot).Sublist TAG_SLOTS :=
  ⟨by decide, (C6_qualifying_tags C6wDoc C6wDefs (by decide)).2.1⟩

theorem C10_nullish_only_absent (doc : DocRecord)
    (hb : doc "boolean1" = some (JsValue.bool false))
    (hn : doc "number1" = some (JsValue.num 0))
    (ht : doc "tag1" = some (JsValue.str "")) :
    (∃ t ∈ computeTags doc [], t.slot = "boolean1" ∧ t.value = "No") ∧
    (∃ t ∈ computeTags doc [], t.slot = "number1" ∧ t.value = "0") ∧
    (∀ t ∈ computeTags doc [], t.slot ≠ "tag1") := by
  refine ⟨?_, ?_, ?_⟩
  · have h1 : slotTag doc [] "boolean1" =
        some { slot := "boolean1", displayName := "boolean1"
             , value := "No", fieldType := "boolean" } := by
      rw [slotTag_some hb]
      rfl
    exact ⟨_, mem_computeTags.mpr ⟨"boolean1", by decide, h1⟩, rfl, rfl⟩
  · have h1 : slotTag doc [] "number1" =
        some { slot := "number1", displayName := "number1"
             , value := "0", fieldType := "number" } := by
      rw [slotTag_some hn]
      rfl
    exact ⟨_, mem_computeTags.mpr ⟨"number1", by decide, h1⟩, rfl, rfl⟩
  · intro t htm hcontra
    obtain ⟨slot2, hs2, hst⟩ := mem_computeTags.mp htm
    have h2 : slot2 = "tag1" := by rw [← hcontra, slotTag_slot hst]
    subst h2
    rw [slotTag_some ht] at hst
    rw [show slotTagBody [] "tag1" (JsValue.str "") = none from rfl] at hst
    exact absurd hst (by simp)

theorem C10_witness :
    (∃ t ∈ computeTags C10wDoc [], t.slot = "boolean1" ∧ t.value = "No") ∧
    (∃ t ∈ computeTags C10wDoc [], t.slot = "number1" ∧ t.value = "0") ∧
    (∀ t ∈ computeTags C10wDoc [], t.slot ≠ "tag1") :=
  C10_nullish_only_absent C10wDoc rfl rfl rfl

theorem C7_formatter_type_directed :
    formatTagValue (JsValue.str "2024-03-05T00:00:00Z") "date" = "Mar 5, 2024" ∧
    (∀ s : String, jsNewDate (JsValue.str s) = none →
      formatTagValue (JsValue.str s) "date" = s) ∧
    formatTagValue (JsValue.bool true) "boolean" = "Yes" ∧
    formatTagValue (JsValue.bool false) "boolean" = "No" ∧
    (∀ n : Int, formatTagValue (JsValue.num n) "number" = localeString n) ∧
    (∀ v : JsValue, v.isNullish = false → (∀ n : Int, v ≠ JsValue.num n) →
      formatTagValue v "number" = jsToString v) ∧
    (∀ (v : JsValue) (ft : String), v.isNullish = false →
      ft ≠ "date" → ft ≠ "boolean" → ft ≠ "number" →
      formatTagValue v ft = jsToString v) := by
  refine ⟨rfl, ?_, rfl, rfl, fun n => rfl, ?_, ?_⟩
  · intro s h
    show (match jsNewDate (JsValue.str s) with
          | some ymd => formatDateMMMdyyyy ymd
          | none => jsToString (JsValue.str s)) = s
    rw [h]
    rfl
  · intro v hv hn
    cases v with
    | null => exact absurd hv (by decide)
    | undefined => exact absurd hv (by decide)
    | bool b => rfl
    | num n => exact absurd rfl (hn n)
    | str s => rfl
    | arr es => rfl
    | obj fs => rfl
  · intro v ft hv hd hb hn
    cases v with
    | null => exact absurd hv (by decide)
    | undefined => exact absurd hv (by decide)
    | bool b => simp [formatTagValue, hd, hb, hn]
    | num n => simp [formatTagValue, hd, hb, hn]
    | str s => simp [formatTagValue, hd, hb, hn]
    | arr es => simp [formatTagValue, hd, hb, hn]
    | obj fs => simp [formatTagValue, hd, hb, hn]

theorem C7_witness :
    formatTagValue (JsValue.str "not-a-date") "date" = "not-a-date" ∧
    formatTagValue (JsValue.num 1234567) "number" = "1,234,567" ∧
    formatTagValue (JsValue.str "x") "number" = "x" ∧
    formatTagValue (JsValue.bool true) "text" = "true" := by
  refine ⟨C7_formatter_type_directed.2.1 "not-a-date" (by decide), ?_, ?_, ?_⟩
  · exact (C7_formatter_type_directed.2.2.2.2.1 1234567).trans (by decide)
  · exact (C7_formatter_type_directed.2.2.2.2.2.1 (JsValue.str "x") rfl
      (fun n h => by cases h)).trans rfl
  · exact (C7_formatter_type_directed.2.2.2.2.2.2 (JsValue.bool true) "text" rfl
      (by decide) (by decide) (by decide)).trans rfl

theorem C8_create_matters_tool (p : GoogleVaultCreateMattersParams) :
    (createMattersTool.request p).method = "POST" ∧
    (createMattersTool.request p).url = "https://vault.googleapis.com/v1/matters" ∧
    ("Authorization", "Bearer " ++ p.accessToken) ∈ (createMattersTool.request p).headers ∧
    (createMattersTool.request p).body =
      [("name", some (JsValue.str p.name)),
       ("description", p.description.map JsValue.str)] ∧
    (∀ (data : JsValue) (msg : String),
      optChain (optChain data "error") "message" = JsValue.str msg → msg ≠ "" →
      createMattersTool.transformResponse { ok := false, jsonData := data } =
        Except.error (enhanceGoogleVaultError msg)) ∧
    (∀ data : JsValue,
      jsTruthy (optChain (optChain data "error") "message") = false →
      createMattersTool.transformResponse { ok := false, jsonData := data } =
        Except.error (enhanceGoogleVaultError "Failed to create matter")) ∧
    (∀ data : JsValue,
      createMattersTool.transformResponse { ok := true, jsonData := data } =
        Except.ok (JsValue.obj [("matter", data)])) := by
  refine ⟨rfl, rfl, by exact List.mem_cons_self _ _, rfl, ?_, ?_, fun data => rfl⟩
  · intro data msg hm hne
    show Except.error (enhanceGoogleVaultError
        (jsOrElse (optChain (optChain data "error") "message") "Failed to create matter")) =
      Except.error (enhanceGoogleVaultError msg)
    rw [hm]
    simp [jsOrElse, jsTruthy, jsToString, hne]
  · intro data hfalsy
    show Except.error (enhanceGoogleVaultError
        (jsOrElse (optChain (optChain data "error") "message") "Failed to create matter")) =
      Except.error (enhanceGoogleVaultError "Failed to create matter")
    have hmsg : jsOrElse (optChain (optChain data "error") "message")
        "Failed to create matter" = "Failed to create matter" := by
      simp [jsOrElse, hfalsy]
    rw [hmsg]

theorem C8_witness :
    (createMattersTool.request C8wParams).method = "POST" ∧
    ("Authorization", "Bearer tok") ∈ (createMattersTool.request C8wParams).headers ∧
    createMattersTool.transformResponse
      { ok := false
      , jsonData := JsValue.obj
          [("error", JsValue.obj [("message", JsValue.str "failed to refresh token")])] } =
      Except.error (enhanceGoogleVaultError "failed to refresh token") ∧
    createMattersTool.transformResponse { ok := true, jsonData := JsValue.num 7 } =
      Except.ok (JsValue.obj [("matter", JsValue.num 7)]) := by
  obtain ⟨m, u, hh, hb, herr, hdef, hok⟩ := C8_create_matters_tool C8wParams
  exact ⟨m, hh, herr _ "failed to refresh token" rfl (by decide), hok _⟩

